import Mathlib

/-! glen_elf_tool: the extension block of the ELF identification region

A shallow embedding of `src/main.cpp`.  The header `kelf.h` that declares the
layout of the block is not part of the sources; what `main.cpp` takes from it
is either a field of `Kelf` (sizes, offset, tag literals) or a definition
modelled from the specification (the two feature codes, the order of the three
fields inside the block).

Bytes are natural numbers, a file is the list of its bytes, and the standard
streams are a list of output events.

`main` declares `Elf64_Ext_Ident ext`, zeroes `sizeof(Elf64_Ext_Ident)` bytes of it
and then reads and writes `sizeof(Elf64_Ident)` bytes through `&ext`.  When the
second size is the larger one the transfer runs past the object and the behaviour
of the run is undefined: `main` has no outcome there (`none`), and every statement
about a run that reaches the transfer carries the hypothesis that the transfer
fits the object.
-/

set_option autoImplicit false

namespace GlenElfTool

/-- A sequence of bytes: the content of a file or of a memory object. -/
abbrev Bytes := List Nat

/-! ## What `kelf.h` provides -/

/-- Modelled from the spec: `kelf.h` is absent; the sentinel "no features
requested" is the value `0`. -/
def K_LOADER_NO_LOADER_FEATURES : Nat := 0

/-- Modelled from the spec: `kelf.h` is absent; the feature "prepare provisional
virtual memory space" is bit 0. -/
def K_LOADER_MK_VMS : Nat := 1

/-- Modelled from the spec: `kelf.h` is absent; `k_vid` is the first field of the
block (2 bytes). -/
def OFF_K_VID : Nat := 0

/-- Modelled from the spec: `kelf.h` is absent; `k_requested_loader_feature_flags`
is the single byte that follows `k_vid`. -/
def OFF_K_FLAGS : Nat := 2

/-- Modelled from the spec: `kelf.h` is absent; `k_ext_str` follows the flag byte
and is `EI_K_EXT_STR` bytes long. -/
def OFF_K_EXT_STR : Nat := 3

/-- The constants and sizes of `kelf.h` that `main.cpp` uses and the spec does not
fix.  A tag literal is the list of its characters, without the terminating NUL. -/
structure Kelf where
  /-- Length of the type tag, `EI_K_EXT_STR`. -/
  EI_K_EXT_STR : Nat
  /-- The literal `K_KEN_BIN_EXT_STR`. -/
  K_KEN_BIN_EXT_STR : Bytes
  /-- The literal `K_KEN_DRIVER_EXT_STR`. -/
  K_KEN_DRIVER_EXT_STR : Bytes
  /-- The literal `K_KEN_MODULE_EXT_STR`. -/
  K_KEN_MODULE_EXT_STR : Bytes
  /-- The value of `offsetof(Elf64_Ident, fields.ext_elf_k_data)`. -/
  extOffset : Nat
  /-- The value of `sizeof(Elf64_Ident)`: the length `main` reads and writes. -/
  sizeofIdent : Nat
  /-- The value of `sizeof(Elf64_Ext_Ident)`: the length `main` zeroes. -/
  sizeofExtIdent : Nat
deriving Repr, DecidableEq

/-- The array a string literal denotes: its characters and the terminating NUL. -/
def literal (s : Bytes) : Bytes := s ++ [0]

/-- Construction of a `std::string` from a `const char*`: the characters before
the first NUL. -/
def stdString (s : Bytes) : Bytes := (literal s).takeWhile (fun c => c != 0)

/-- The array `c_str()` points to: the characters of the string and a NUL. -/
def c_str (s : Bytes) : Bytes := s ++ [0]

/-- The test `!memcmp(a, b, n)`: the first `n` bytes of the two arrays agree. -/
def memcmpEq (a b : Bytes) (n : Nat) : Bool := a.take n == b.take n

/-! ## The codec functions of `main.cpp` -/

/-- Source `to_load_feature`. -/
def to_load_feature (feature_name : String) : Nat :=
  if feature_name = "K_LOADER_MK_VMS" then K_LOADER_MK_VMS
  else K_LOADER_NO_LOADER_FEATURES

/-- Source `to_ext_str`; the thrown `std::runtime_error` is the error value. -/
def to_ext_str (K : Kelf) (ext_name : String) : Except String Bytes :=
  if ext_name = "binary" then .ok (stdString K.K_KEN_BIN_EXT_STR)
  else if ext_name = "driver" then .ok (stdString K.K_KEN_DRIVER_EXT_STR)
  else if ext_name = "module" then .ok (stdString K.K_KEN_MODULE_EXT_STR)
  else .error "Invalid ext type"

/-- Source `str_k_type`. -/
def str_k_type (K : Kelf) (k_type : Bytes) : String :=
  if memcmpEq k_type (literal K.K_KEN_BIN_EXT_STR) K.EI_K_EXT_STR then "binary"
  else if memcmpEq k_type (literal K.K_KEN_DRIVER_EXT_STR) K.EI_K_EXT_STR then "driver"
  else if memcmpEq k_type (literal K.K_KEN_MODULE_EXT_STR) K.EI_K_EXT_STR then "module"
  else "Unknown"

/-- Source `str_requested_loader_features`. -/
def str_requested_loader_features (features : Nat) : List String :=
  if features = K_LOADER_NO_LOADER_FEATURES then ["K_LOADER_NO_LOADER_FEATURES"]
  else if features &&& K_LOADER_MK_VMS ≠ 0 then ["K_LOADER_MK_VMS"]
  else []

/-! ## Files and memory -/

/-- The bytes `fread` obtains: at most `n` bytes from position `pos` of the file,
fewer when the file ends before; they are stored also when they do not make up a
whole element. -/
def fread (file : Bytes) (pos n : Nat) : Bytes := (file.drop pos).take n

/-- Storing `data` into a memory object from byte `pos` on. -/
def store (mem : Bytes) (pos : Nat) (data : Bytes) : Bytes :=
  mem.take pos ++ data ++ mem.drop (pos + data.length)

/-- The file after `fwrite` of `data` at position `pos`; a position past the end
leaves a gap of zero bytes, and a write past the end extends the file. -/
def fwrite (file : Bytes) (pos : Nat) (data : Bytes) : Bytes :=
  file.take pos ++ List.replicate (pos - file.length) 0 ++ data
    ++ file.drop (pos + data.length)

/-- The object `ext` after the `memset`: `sizeof(Elf64_Ext_Ident)` zero bytes. -/
def extMemory (K : Kelf) : Bytes := List.replicate K.sizeofExtIdent 0

/-- The field `ext.ext_fields.k_vid`, two bytes in the byte order of the host
(little endian). -/
def get_k_vid (ext : Bytes) : Nat :=
  ext.getD OFF_K_VID 0 + 256 * ext.getD (OFF_K_VID + 1) 0

/-- The field `ext.ext_fields.k_requested_loader_feature_flags`. -/
def get_k_flags (ext : Bytes) : Nat := ext.getD OFF_K_FLAGS 0

/-- The field `ext.ext_fields.k_ext_str`. -/
def get_k_ext_str (K : Kelf) (ext : Bytes) : Bytes :=
  (ext.drop OFF_K_EXT_STR).take K.EI_K_EXT_STR

/-- The assignment `ext.ext_fields.k_vid = vid`. -/
def set_k_vid (ext : Bytes) (vid : Nat) : Bytes :=
  store ext OFF_K_VID [vid % 256, vid / 256 % 256]

/-- The assignment `ext.ext_fields.k_requested_loader_feature_flags = loader_fet`. -/
def set_k_flags (ext : Bytes) (loader_fet : Nat) : Bytes :=
  store ext OFF_K_FLAGS [loader_fet % 256]

/-- The call `memcpy(ext.ext_fields.k_ext_str, ext_type.c_str(), EI_K_EXT_STR)`. -/
def set_k_ext_str (K : Kelf) (ext : Bytes) (ext_type : Bytes) : Bytes :=
  store ext OFF_K_EXT_STR ((c_str ext_type).take K.EI_K_EXT_STR)

/-! ## The command line and the run -/

/-- The parsed options, the `variables_map` of `main`. -/
structure Options where
  /-- Option `--help`. -/
  help : Bool := false
  /-- Option `--elf`. -/
  elf : Option String := none
  /-- Option `--vid`. -/
  vid : Option Nat := none
  /-- Option `--k-type`. -/
  k_type : Option String := none
  /-- Option `--loader-feature`, the values in the order given. -/
  loader_feature : Option (List String) := none
  /-- Option `--ignore-elf-magic`. -/
  ignore_elf_magic : Bool := false
  /-- Option `--info`. -/
  info : Bool := false
deriving Repr, DecidableEq

/-- The number of options present, `vm.size()`. -/
def Options.size (vm : Options) : Nat :=
  vm.help.toNat + vm.elf.isSome.toNat + vm.vid.isSome.toNat + vm.k_type.isSome.toNat
    + vm.loader_feature.isSome.toNat + vm.ignore_elf_magic.toNat + vm.info.toNat

/-- The file named by `--elf` as the run finds it: its content if it exists, and
whether it may be opened for reading and for writing. -/
structure World where
  /-- Content of the file, `none` when the path does not exist. -/
  file : Option Bytes
  /-- Whether opening for reading succeeds. -/
  readable : Bool := true
  /-- Whether opening for writing succeeds. -/
  writable : Bool := true
deriving Repr, DecidableEq

/-- What a run prints. -/
inductive Out where
  /-- The usage text of `help`. -/
  | usage
  /-- One line on the standard output. -/
  | line (s : String)
  /-- A message of `perror` on the standard error. -/
  | perror (s : String)
deriving Repr, DecidableEq

/-- The result of a run: exit code, output, and the content of the file after it. -/
structure Outcome where
  /-- The value `main` returns. -/
  exit : Nat
  /-- The output, in order. -/
  out : List Out
  /-- The content of the file after the run. -/
  file : Option Bytes
deriving Repr, DecidableEq

/-- The loop of `main` over the requested feature names, from the accumulated
value `loader_fet` on. -/
def accumulate_features : Nat → List String → Nat
  | loader_fet, [] => loader_fet
  | loader_fet, feat :: rest =>
    let feature_byte := to_load_feature feat
    if feature_byte = K_LOADER_NO_LOADER_FEATURES then 0
    else accumulate_features ((loader_fet ||| feature_byte) % 256) rest

/-- The value of `info_only` when the file is opened. -/
def info_only (vm : Options) : Bool :=
  vm.info
    || (vm.size == 1 && vm.elf.isSome)
    || (vm.size == 2 && vm.elf.isSome && vm.ignore_elf_magic)

/-- The magic test of `main`: four bytes are read and they are `0x7F 'E' 'L' 'F'`. -/
def magic_ok (file : Bytes) : Bool :=
  let magic := fread file 0 4
  magic.length == 4 && magic.getD 0 0 == 0x7F && magic.getD 1 0 == 0x45
    && magic.getD 2 0 == 0x4C && magic.getD 3 0 == 0x46

/-- The lines of the info report for the block `ext`. -/
def info_report (K : Kelf) (ext : Bytes) : List Out :=
  [Out.line ("kvid: " ++ toString (get_k_vid ext)),
   Out.line "Requested Loader Features:"]
    ++ (str_requested_loader_features (get_k_flags ext)).map
        (fun feat => Out.line ("   " ++ feat))
    ++ [Out.line ("ktype: " ++ str_k_type K (get_k_ext_str K ext))]

/-- The three conditional field updates of patch mode. -/
def apply_updates (K : Kelf) (vm : Options) (vid loader_fet : Nat) (ext_type : Bytes)
    (ext : Bytes) : Bytes :=
  let ext := if vm.vid.isSome then set_k_vid ext vid else ext
  let ext := if vm.loader_feature.isSome then set_k_flags ext loader_fet else ext
  if vm.k_type.isSome && !ext_type.isEmpty then set_k_ext_str K ext ext_type else ext

/-- The feature byte `loader_fet` that `main` computes from the options. -/
def requested_features (vm : Options) : Nat :=
  match vm.loader_feature with
  | some feats => if !vm.info then accumulate_features 0 feats else 0
  | none => 0

/-- The string `ext_type` that `main` computes from the options, or the message
of the exception `to_ext_str` throws. -/
def requested_type (K : Kelf) (vm : Options) : Except String Bytes :=
  match vm.k_type with
  | some name => if !vm.info then to_ext_str K name else .ok []
  | none => .ok []

/-- The version id `vid` that `main` computes from the options, an `Elf64_Half`. -/
def requested_vid (vm : Options) : Nat :=
  match vm.vid with
  | some v => if !vm.info then v % 65536 else 0
  | none => 0

/-- The object `ext` after the seek to the block and the `fread` of
`sizeof(Elf64_Ident)` bytes, for a transfer that fits the object; the bytes a short
file does not supply stay zero. -/
def read_ext (K : Kelf) (file : Bytes) : Bytes :=
  store (extMemory K) 0 (fread file K.extOffset K.sizeofIdent)

/-- The bytes patch mode hands to `fwrite`, for a transfer that fits the object:
the first `sizeof(Elf64_Ident)` bytes of `ext` after the field updates. -/
def written_block (K : Kelf) (vm : Options) (ext_type : Bytes) (file : Bytes) : Bytes :=
  (apply_updates K vm (requested_vid vm) (requested_features vm) ext_type
    (read_ext K file)).take K.sizeofIdent

/-- Source `main`, from the parsed options on.  The result is `none` when the run
gets to the `fread` of the block with `sizeof(Elf64_Ident)` larger than
`sizeof(Elf64_Ext_Ident)`: the transfer runs past `ext` and the behaviour is
undefined. -/
def main (K : Kelf) (vm : Options) (w : World) : Option Outcome :=
  if vm.help || vm.size == 0 then some ⟨0, [Out.usage], w.file⟩
  else match vm.elf with
  | none => some ⟨1, [Out.line "No no ELF binary provided", Out.usage], w.file⟩
  | some elf_path =>
    match w.file with
    | none =>
      some ⟨1, [Out.line ("ELF(" ++ elf_path ++ ") file does not exist"), Out.usage],
        none⟩
    | some file =>
      match requested_type K vm with
      | .error what => some ⟨1, [Out.line what], some file⟩
      | .ok ext_type =>
        let opened := if info_only vm then w.readable else w.readable && w.writable
        if !opened then some ⟨1, [Out.perror "fopen failed"], some file⟩
        else if !vm.ignore_elf_magic && !magic_ok file then
          some ⟨1, [Out.line ("ELF(" ++ elf_path ++ ") Is not a valid ELF file")],
            some file⟩
        else if K.sizeofExtIdent < K.sizeofIdent then none
        else if info_only vm then some ⟨0, info_report K (read_ext K file), some file⟩
        else
          some ⟨0, [],
            some (fwrite file K.extOffset (written_block K vm ext_type file))⟩

/-- The three recognised byte patterns: what `str_k_type` compares a tag with,
the first `EI_K_EXT_STR` bytes of each tag literal. -/
def tag_patterns (K : Kelf) : List Bytes :=
  [(literal K.K_KEN_BIN_EXT_STR).take K.EI_K_EXT_STR,
   (literal K.K_KEN_DRIVER_EXT_STR).take K.EI_K_EXT_STR,
   (literal K.K_KEN_MODULE_EXT_STR).take K.EI_K_EXT_STR]

/-- The `memcpy` of `EI_K_EXT_STR` bytes from `c_str()` stays inside the array of
each of the three tag strings. -/
def Kelf.copyInBounds (K : Kelf) : Prop :=
  K.EI_K_EXT_STR ≤ (stdString K.K_KEN_BIN_EXT_STR).length + 1
    ∧ K.EI_K_EXT_STR ≤ (stdString K.K_KEN_DRIVER_EXT_STR).length + 1
    ∧ K.EI_K_EXT_STR ≤ (stdString K.K_KEN_MODULE_EXT_STR).length + 1

instance (K : Kelf) : Decidable K.copyInBounds := by
  unfold Kelf.copyInBounds; infer_instance

/-- The three recognised byte patterns are pairwise different. -/
def Kelf.patternsDistinct (K : Kelf) : Prop := (tag_patterns K).Nodup

instance (K : Kelf) : Decidable K.patternsDistinct := by
  unfold Kelf.patternsDistinct; infer_instance

/-- None of the three tag strings is empty, so that `main` copies the one it is
asked for. -/
def Kelf.tagsNonempty (K : Kelf) : Prop :=
  stdString K.K_KEN_BIN_EXT_STR ≠ [] ∧ stdString K.K_KEN_DRIVER_EXT_STR ≠ []
    ∧ stdString K.K_KEN_MODULE_EXT_STR ≠ []

instance (K : Kelf) : Decidable K.tagsNonempty := by
  unfold Kelf.tagsNonempty; infer_instance

/-- An instance of the header: the block is the seven padding bytes of the
sixteen-byte identification region, with a four-byte tag.  With it the transfer
of sixteen bytes runs past the seven-byte object. -/
def sampleKelf : Kelf where
  EI_K_EXT_STR := 4
  K_KEN_BIN_EXT_STR := [0x4B, 0x42, 0x49, 0x4E]
  K_KEN_DRIVER_EXT_STR := [0x4B, 0x44, 0x52, 0x56]
  K_KEN_MODULE_EXT_STR := [0x4B, 0x4D, 0x4F, 0x44]
  extOffset := 9
  sizeofIdent := 16
  sizeofExtIdent := 7

/-- An instance of the header whose transfer fits the object, for concrete runs:
`sampleKelf` with `sizeof(Elf64_Ident)` equal to the seven bytes of the block. -/
def fittingKelf : Kelf := { sampleKelf with sizeofIdent := 7 }

/-- A file that holds the ELF magic and nothing else. -/
def magicOnlyFile : Bytes := [0x7F, 0x45, 0x4C, 0x46]

/-- A file with the magic, the rest of the identification region with version 3,
no feature and the first tag of `sampleKelf` in the block, and twelve more bytes. -/
def sampleFile : Bytes :=
  [0x7F, 0x45, 0x4C, 0x46, 2, 1, 1, 0, 0, 3, 0, 0, 0x4B, 0x42, 0x49, 0x4E,
   2, 0, 0x3E, 0, 1, 0, 0, 0, 0x10, 0x20, 0x30, 0x40]

/-- The request `--elf kernel.elf --vid 1`. -/
def vidRequest : Options := { elf := some "kernel.elf", vid := some 1 }

/-- The file `sampleFile` with the feature bit set and a tag that is none of the
patterns of `sampleKelf`. -/
def unknownTagFile : Bytes :=
  [0x7F, 0x45, 0x4C, 0x46, 2, 1, 1, 0, 0, 3, 0, 1, 0x4E, 0x45, 0x57, 0x21,
   2, 0, 0x3E, 0, 1, 0, 0, 0, 0x10, 0x20, 0x30, 0x40]

/-- A file without the ELF magic, shorter than four bytes. -/
def noMagicFile : Bytes := [1, 2, 3]

/-- The file `sampleFile` with the first byte of the magic replaced. -/
def badMagicFile : Bytes :=
  [0x7E, 0x45, 0x4C, 0x46, 2, 1, 1, 0, 0, 3, 0, 0, 0x4B, 0x42, 0x49, 0x4E,
   2, 0, 0x3E, 0, 1, 0, 0, 0, 0x10, 0x20, 0x30, 0x40]

/-- The request `--elf kernel.elf --vid 513 -f K_LOADER_MK_VMS`. -/
def vidFeatureRequest : Options :=
  { elf := some "kernel.elf", vid := some 513,
    loader_feature := some ["K_LOADER_MK_VMS"] }

/-- The world in which the path names `file`, readable and writable. -/
def worldOf (file : Bytes) : World := { file := some file }

/-- The request `--elf kernel.elf`. -/
def plainRequest : Options := { elf := some "kernel.elf" }

/-- The request `--elf kernel.elf --k-type Binary --vid 7`. -/
def badTypeRequest : Options :=
  { elf := some "kernel.elf", k_type := some "Binary", vid := some 7 }

/-- The request `--elf kernel.elf -f K_LOADER_MK_VMS -f totally_unknown`. -/
def sentinelRequest : Options :=
  { elf := some "kernel.elf",
    loader_feature := some ["K_LOADER_MK_VMS", "totally_unknown"] }

/-- The request `--elf kernel.elf --vid 513 --k-type driver -f K_LOADER_MK_VMS`. -/
def fullRequest : Options :=
  { elf := some "kernel.elf", vid := some 513, k_type := some "driver",
    loader_feature := some ["K_LOADER_MK_VMS"] }

/-! ## Files and memory: lengths and bytes -/

theorem store_length (mem : Bytes) (pos : Nat) (data : Bytes)
    (h : pos + data.length ≤ mem.length) : (store mem pos data).length = mem.length := by
  simp [store]; omega

theorem store_length_ge (mem : Bytes) (pos : Nat) (data : Bytes) :
    mem.length ≤ (store mem pos data).length := by
  simp [store]; omega

theorem store_getElem? (mem : Bytes) (pos : Nat) (data : Bytes) (i : Nat)
    (h : pos ≤ mem.length) :
    (store mem pos data)[i]? =
      if i < pos then mem[i]?
      else if i < pos + data.length then data[i - pos]? else mem[i]? := by
  unfold store
  simp only [List.getElem?_append, List.length_append, List.length_take,
    List.getElem?_take, List.getElem?_drop]
  have hmin : min pos mem.length = pos := by omega
  rw [hmin]
  split_ifs <;> first | rfl | omega | (congr 1; omega)

theorem fwrite_length (file : Bytes) (pos : Nat) (data : Bytes) :
    (fwrite file pos data).length = max file.length (pos + data.length) := by
  simp [fwrite]; omega

theorem fwrite_getElem? (file : Bytes) (pos : Nat) (data : Bytes) (i : Nat) :
    (fwrite file pos data)[i]? =
      if i < pos then (if i < file.length then file[i]? else some 0)
      else if i < pos + data.length then data[i - pos]? else file[i]? := by
  unfold fwrite
  simp only [List.getElem?_append, List.length_append, List.length_take,
    List.getElem?_take, List.getElem?_drop, List.length_replicate,
    List.getElem?_replicate]
  split_ifs <;> first | rfl | omega | (congr 1; omega)

theorem fread_getElem? (file : Bytes) (pos n i : Nat) :
    (fread file pos n)[i]? = if i < n then file[pos + i]? else none := by
  simp [fread, List.getElem?_take, List.getElem?_drop]

theorem fread_length (file : Bytes) (pos n : Nat) :
    (fread file pos n).length = min n (file.length - pos) := by
  simp [fread]

theorem extMemory_length (K : Kelf) : (extMemory K).length = K.sizeofExtIdent := by
  simp [extMemory]

/-- The object keeps its size under a transfer that fits it. -/
theorem read_ext_length (K : Kelf) (file : Bytes)
    (hsize : K.sizeofIdent ≤ K.sizeofExtIdent) :
    (read_ext K file).length = K.sizeofExtIdent := by
  unfold read_ext
  rw [store_length, extMemory_length]
  rw [extMemory_length, fread_length]; omega

/-- The bytes of the block that the file supplies are the bytes of the file. -/
theorem read_ext_getElem? (K : Kelf) (file : Bytes) (i : Nat)
    (hi : i < K.sizeofIdent) (hfile : K.extOffset + i < file.length) :
    (read_ext K file)[i]? = file[K.extOffset + i]? := by
  unfold read_ext
  rw [store_getElem? _ _ _ _ (Nat.zero_le _)]
  have hlen := fread_length file K.extOffset K.sizeofIdent
  have h1 : ¬ i < 0 := by omega
  have h2 : i < 0 + (fread file K.extOffset K.sizeofIdent).length := by omega
  rw [if_neg h1, if_pos h2, fread_getElem?, if_pos (by omega)]
  simp

/-! ## The field updates -/

theorem set_k_vid_length (ext : Bytes) (vid : Nat) (h : 2 ≤ ext.length) :
    (set_k_vid ext vid).length = ext.length := by
  unfold set_k_vid; rw [store_length]; simp [OFF_K_VID]; omega

theorem set_k_flags_length (ext : Bytes) (f : Nat) (h : 3 ≤ ext.length) :
    (set_k_flags ext f).length = ext.length := by
  unfold set_k_flags; rw [store_length]; simp [OFF_K_FLAGS]; omega

theorem set_k_vid_getElem? (ext : Bytes) (vid i : Nat) :
    (set_k_vid ext vid)[i]? =
      if i < 2 then [vid % 256, vid / 256 % 256][i]? else ext[i]? := by
  unfold set_k_vid
  rw [store_getElem? _ _ _ _ (by simp [OFF_K_VID])]
  simp [OFF_K_VID]

theorem set_k_flags_getElem? (ext : Bytes) (f i : Nat) (h : 2 ≤ ext.length) :
    (set_k_flags ext f)[i]? = if i = 2 then some (f % 256) else ext[i]? := by
  unfold set_k_flags
  rw [store_getElem? _ _ _ _ (by simpa [OFF_K_FLAGS] using h)]
  simp only [OFF_K_FLAGS, List.length_singleton]
  split_ifs <;> first | rfl | omega | skip
  · have : i = 2 := by omega
    subst this; simp

theorem set_k_ext_str_getElem? (K : Kelf) (ext t : Bytes) (i : Nat)
    (h : 3 ≤ ext.length) :
    (set_k_ext_str K ext t)[i]? =
      if i < 3 then ext[i]?
      else if i < 3 + ((c_str t).take K.EI_K_EXT_STR).length then
        ((c_str t).take K.EI_K_EXT_STR)[i - 3]?
      else ext[i]? := by
  unfold set_k_ext_str
  rw [store_getElem? _ _ _ _ (by simpa [OFF_K_EXT_STR] using h)]
  simp only [OFF_K_EXT_STR]

/-- Every byte of the block after the three conditional updates. -/
theorem apply_updates_getElem? (K : Kelf) (vm : Options) (vid fet : Nat)
    (t ext : Bytes) (i : Nat) (h : 3 ≤ ext.length) :
    (apply_updates K vm vid fet t ext)[i]? =
      if i < 2 then
        (if vm.vid.isSome then [vid % 256, vid / 256 % 256][i]? else ext[i]?)
      else if i = 2 then
        (if vm.loader_feature.isSome then some (fet % 256) else ext[i]?)
      else if (vm.k_type.isSome && !t.isEmpty) = true
          ∧ i < 3 + ((c_str t).take K.EI_K_EXT_STR).length then
        ((c_str t).take K.EI_K_EXT_STR)[i - 3]?
      else ext[i]? := by
  have hv : ∀ e : Bytes, 3 ≤ e.length →
      3 ≤ (if vm.vid.isSome then set_k_vid e vid else e).length := by
    intro e he
    split_ifs
    · rw [set_k_vid_length _ _ (by omega)]; exact he
    · exact he
  have hf : ∀ e : Bytes, 3 ≤ e.length →
      3 ≤ (if vm.loader_feature.isSome then set_k_flags e fet else e).length := by
    intro e he
    split_ifs
    · rw [set_k_flags_length _ _ he]; exact he
    · exact he
  unfold apply_updates
  simp only []
  have e1 : ∀ j, (if vm.vid.isSome then set_k_vid ext vid else ext)[j]? =
      if j < 2 then (if vm.vid.isSome then [vid % 256, vid / 256 % 256][j]? else ext[j]?)
      else ext[j]? := by
    intro j
    by_cases hvid : vm.vid.isSome = true
    · simp only [hvid, if_true, set_k_vid_getElem?]
    · simp [hvid]
  have e2 : ∀ j, (if vm.loader_feature.isSome then
        set_k_flags (if vm.vid.isSome then set_k_vid ext vid else ext) fet
      else (if vm.vid.isSome then set_k_vid ext vid else ext))[j]? =
      if j = 2 then (if vm.loader_feature.isSome then some (fet % 256) else ext[j]?)
      else (if vm.vid.isSome then set_k_vid ext vid else ext)[j]? := by
    intro j
    by_cases hl : vm.loader_feature.isSome = true
    · simp only [hl, if_true]
      rw [set_k_flags_getElem? _ _ _ (by have := hv _ h; omega)]
    · by_cases hj : j = 2
      · rw [if_neg hl, if_neg hl, e1, hj]; simp
      · rw [if_neg hl, if_neg hj]
  by_cases hk : (vm.k_type.isSome && !t.isEmpty) = true
  · rw [if_pos hk, set_k_ext_str_getElem? _ _ _ _ (hf _ (hv _ h)), e2, e1]
    simp only [hk, true_and]
    by_cases h2 : i < 2
    · have h3 : i < 3 := by omega
      have h4 : i ≠ 2 := by omega
      simp only [h2, h3, h4, if_true, if_false]
    · by_cases h3 : i = 2
      · subst h3; simp
      · have h4 : ¬ i < 3 := by omega
        simp only [h2, h3, h4, if_false]
  · rw [if_neg hk, e2, e1]
    simp only [hk, false_and, if_false]
    by_cases h2 : i < 2
    · have h4 : i ≠ 2 := by omega
      simp only [h2, h4, if_true, if_false]
    · by_cases h3 : i = 2
      · subst h3; simp
      · simp [h2, h3]

theorem apply_updates_length_ge (K : Kelf) (vm : Options) (vid fet : Nat)
    (t ext : Bytes) : ext.length ≤ (apply_updates K vm vid fet t ext).length := by
  unfold apply_updates
  simp only []
  have h1 : ext.length ≤ (if vm.vid.isSome then set_k_vid ext vid else ext).length := by
    split_ifs
    · exact store_length_ge _ _ _
    · exact Nat.le_refl _
  have h2 : ∀ e : Bytes,
      e.length ≤ (if vm.loader_feature.isSome then set_k_flags e fet else e).length := by
    intro e
    split_ifs
    · exact store_length_ge _ _ _
    · exact Nat.le_refl _
  by_cases hk : (vm.k_type.isSome && !t.isEmpty) = true
  · rw [if_pos hk]
    exact Nat.le_trans (Nat.le_trans h1 (h2 _)) (store_length_ge _ _ _)
  · rw [if_neg hk]
    exact Nat.le_trans h1 (h2 _)

/-- The block handed to `fwrite` is `sizeof(Elf64_Ident)` bytes long. -/
theorem written_block_length (K : Kelf) (vm : Options) (t file : Bytes)
    (hsize : K.sizeofIdent ≤ K.sizeofExtIdent) :
    (written_block K vm t file).length = K.sizeofIdent := by
  unfold written_block
  have h := apply_updates_length_ge K vm (requested_vid vm) (requested_features vm) t
    (read_ext K file)
  rw [read_ext_length K file hsize] at h
  rw [List.length_take]; omega

/-! ## The run -/

theorem size_pos_of_elf (vm : Options) (path : String) (he : vm.elf = some path) :
    (vm.size == 0) = false := by
  simp [Options.size, he]

/-- With a path given, `info_only` holds exactly for `--info` and for a request
without a mutating option. -/
theorem info_only_eq (vm : Options) (path : String) (hh : vm.help = false)
    (he : vm.elf = some path) :
    info_only vm
      = (vm.info || (vm.vid.isNone && vm.k_type.isNone && vm.loader_feature.isNone)) := by
  obtain ⟨help, elf, vid, k_type, loader_feature, ignore_elf_magic, info⟩ := vm
  simp only at hh he
  subst hh he
  cases vid <;> cases k_type <;> cases loader_feature <;> cases ignore_elf_magic
    <;> cases info <;> rfl

theorem info_false_of_patch (vm : Options) (hi : info_only vm = false) :
    vm.info = false := by
  unfold info_only at hi
  cases h : vm.info
  · rfl
  · rw [h] at hi; simp at hi

/-- In info mode no type name is converted. -/
theorem requested_type_of_info (K : Kelf) (vm : Options) (path : String)
    (hh : vm.help = false) (he : vm.elf = some path) (hi : info_only vm = true) :
    requested_type K vm = .ok [] := by
  rw [info_only_eq vm path hh he] at hi
  unfold requested_type
  cases hk : vm.k_type with
  | none => rfl
  | some name =>
    cases hinfo : vm.info
    · simp [hk, hinfo] at hi
    · simp

theorem not_overrun (K : Kelf) (hsize : K.sizeofIdent ≤ K.sizeofExtIdent) :
    ¬ K.sizeofExtIdent < K.sizeofIdent := by omega

/-- The outcome of an info run that opens the file and passes the magic test, with
a transfer that fits the object. -/
theorem main_info (K : Kelf) (vm : Options) (w : World) (path : String) (file : Bytes)
    (hsize : K.sizeofIdent ≤ K.sizeofExtIdent)
    (hh : vm.help = false) (he : vm.elf = some path)
    (hf : w.file = some file) (hi : info_only vm = true) (hr : w.readable = true)
    (hm : vm.ignore_elf_magic = true ∨ magic_ok file = true) :
    main K vm w = some ⟨0, info_report K (read_ext K file), some file⟩ := by
  unfold main
  rw [hh, size_pos_of_elf vm path he]
  simp only [Bool.or_self, Bool.false_eq_true, if_false, he, hf,
    requested_type_of_info K vm path hh he hi, hi, if_true, hr, Bool.not_true,
    not_overrun K hsize]
  rcases hm with hm | hm <;> simp [hm]

/-- The outcome of a patch run under the conditions that let it through, with a
transfer that fits the object. -/
theorem main_patch (K : Kelf) (vm : Options) (w : World) (path : String)
    (file t : Bytes) (hsize : K.sizeofIdent ≤ K.sizeofExtIdent)
    (hh : vm.help = false) (he : vm.elf = some path)
    (hf : w.file = some file) (hi : info_only vm = false)
    (ht : requested_type K vm = .ok t) (hr : w.readable = true)
    (hw : w.writable = true)
    (hm : vm.ignore_elf_magic = true ∨ magic_ok file = true) :
    main K vm w
      = some ⟨0, [], some (fwrite file K.extOffset (written_block K vm t file))⟩ := by
  unfold main
  rw [hh, size_pos_of_elf vm path he]
  simp only [Bool.or_self, Bool.false_eq_true, if_false, he, hf, ht, hi, hr, hw,
    Bool.and_self, Bool.not_true, not_overrun K hsize]
  rcases hm with hm | hm <;> simp [hm]

/-- A patch run that returns 0 met the conditions of `main_patch`. -/
theorem patch_conditions_of_exit (K : Kelf) (vm : Options) (w : World) (path : String)
    (file : Bytes) (o : Outcome) (hh : vm.help = false)
    (he : vm.elf = some path) (hf : w.file = some file) (hi : info_only vm = false)
    (hrun : main K vm w = some o) (hx : o.exit = 0) :
    K.sizeofIdent ≤ K.sizeofExtIdent
      ∧ ∃ t, requested_type K vm = .ok t ∧ w.readable = true ∧ w.writable = true
        ∧ (vm.ignore_elf_magic = true ∨ magic_ok file = true) := by
  unfold main at hrun
  rw [hh, size_pos_of_elf vm path he] at hrun
  simp only [Bool.or_self, Bool.false_eq_true, if_false, he, hf, hi] at hrun
  cases ht : requested_type K vm with
  | error what =>
    rw [ht] at hrun
    simp only [Option.some.injEq] at hrun
    rw [← hrun] at hx
    simp at hx
  | ok t =>
    rw [ht] at hrun
    simp only [] at hrun
    by_cases hsz : K.sizeofExtIdent < K.sizeofIdent
    · cases hr : w.readable <;> cases hw : w.writable <;> cases hg : vm.ignore_elf_magic
        <;> cases hmag : magic_ok file <;> simp [hr, hw, hg, hmag, hsz] at hrun
        <;> (rw [← hrun] at hx; simp at hx)
    · refine ⟨by omega, t, rfl, ?_⟩
      cases hr : w.readable <;> cases hw : w.writable <;> cases hg : vm.ignore_elf_magic
        <;> cases hmag : magic_ok file <;> simp [hr, hw, hg, hmag, hsz] at hrun ⊢
        <;> (rw [← hrun] at hx; simp at hx)

/-- With a transfer that fits the object every run has an outcome. -/
theorem main_defined (K : Kelf) (vm : Options) (w : World)
    (hsize : K.sizeofIdent ≤ K.sizeofExtIdent) : ∃ o, main K vm w = some o := by
  unfold main
  have hno := not_overrun K hsize
  by_cases h1 : (vm.help || vm.size == 0) = true
  · rw [if_pos h1]; exact ⟨_, rfl⟩
  · rw [if_neg h1]
    cases vm.elf with
    | none => exact ⟨_, rfl⟩
    | some path =>
      cases w.file with
      | none => exact ⟨_, rfl⟩
      | some file =>
        cases requested_type K vm with
        | error what => exact ⟨_, rfl⟩
        | ok t =>
          simp only [hno, if_false]
          split_ifs <;> exact ⟨_, rfl⟩

/-- A run whose transfer runs past the object has no outcome once it has opened
the file and passed or skipped the magic test. -/
theorem main_overrun (K : Kelf) (vm : Options) (w : World) (path : String)
    (file t : Bytes) (hsize : K.sizeofExtIdent < K.sizeofIdent)
    (hh : vm.help = false) (he : vm.elf = some path) (hf : w.file = some file)
    (ht : requested_type K vm = .ok t) (hr : w.readable = true)
    (hw : w.writable = true)
    (hm : vm.ignore_elf_magic = true ∨ magic_ok file = true) :
    main K vm w = none := by
  unfold main
  rw [hh, size_pos_of_elf vm path he]
  simp only [Bool.or_self, Bool.false_eq_true, if_false, he, hf, ht, hr, hw,
    Bool.and_self, ite_self, Bool.not_true, hsize, if_true]
  rcases hm with hm | hm <;> simp [hm]

/-- An info run leaves the file as it was. -/
theorem main_file_of_info (K : Kelf) (vm : Options) (w : World)
    (hsize : K.sizeofIdent ≤ K.sizeofExtIdent) (hi : info_only vm = true) :
    ∃ o, main K vm w = some o ∧ o.file = w.file := by
  unfold main
  have hno := not_overrun K hsize
  by_cases h1 : (vm.help || vm.size == 0) = true
  · rw [if_pos h1]; exact ⟨_, rfl, rfl⟩
  · rw [if_neg h1]
    cases vm.elf with
    | none => exact ⟨_, rfl, rfl⟩
    | some path =>
      cases hf : w.file with
      | none => exact ⟨_, rfl, rfl⟩
      | some file =>
        cases requested_type K vm with
        | error what => exact ⟨_, rfl, rfl⟩
        | ok t =>
          simp only [hno, if_false, hi, if_true]
          split_ifs <;> exact ⟨_, rfl, rfl⟩

/-! ## The codec -/

theorem c_str_stdString_literal (s : Bytes) : c_str (stdString s) <+: literal s := by
  unfold c_str stdString literal
  induction s with
  | nil => simp [List.takeWhile]
  | cons a s ih =>
    by_cases ha : a = 0
    · subst ha
      simp [List.takeWhile]
    · have hne : (a != 0) = true := by simpa using ha
      simp only [List.cons_append, List.takeWhile, hne]
      exact (List.prefix_cons_inj a).mpr ih

/-- What `memcpy` copies from the string of a tag literal is the pattern
`str_k_type` compares with. -/
theorem take_c_str_stdString (s : Bytes) (n : Nat) (h : n ≤ (stdString s).length + 1) :
    (c_str (stdString s)).take n = (literal s).take n := by
  have hp := c_str_stdString_literal s
  rw [List.prefix_iff_eq_take] at hp
  have hl : (c_str (stdString s)).length = (stdString s).length + 1 := by simp [c_str]
  rw [hp, List.take_take, hl, Nat.min_eq_left h]

theorem to_ext_str_error (K : Kelf) (name : String)
    (h : name ∉ ["binary", "driver", "module"]) :
    to_ext_str K name = .error "Invalid ext type" := by
  simp only [List.mem_cons, List.mem_singleton, List.not_mem_nil, or_false, not_or] at h
  simp [to_ext_str, h.1, h.2.1, h.2.2]

theorem str_k_type_unknown_iff (K : Kelf) (buf : Bytes) :
    str_k_type K buf = "Unknown" ↔ buf.take K.EI_K_EXT_STR ∉ tag_patterns K := by
  unfold str_k_type memcmpEq tag_patterns
  simp only [beq_iff_eq, List.mem_cons, List.mem_singleton, List.not_mem_nil, or_false,
    not_or]
  split_ifs with h1 h2 h3
  · simp [h1]
  · simp [h2]
  · simp [h3]
  · simp [h1, h2, h3]

theorem accumulate_features_eq (feats : List String) :
    ∀ acc : Nat, acc ≤ 1 →
      accumulate_features acc feats =
        if ∀ s ∈ feats, s = "K_LOADER_MK_VMS" then (if feats = [] then acc else 1)
        else 0 := by
  induction feats with
  | nil => intro acc _; simp [accumulate_features]
  | cons feat rest ih =>
    intro acc hacc
    by_cases hfeat : feat = "K_LOADER_MK_VMS"
    · have hor : (acc ||| 1) % 256 = 1 := by
        interval_cases acc <;> rfl
      simp only [accumulate_features, to_load_feature, hfeat, if_true, K_LOADER_MK_VMS,
        K_LOADER_NO_LOADER_FEATURES, Nat.one_ne_zero, if_false, hor]
      rw [ih 1 (Nat.le_refl 1)]
      by_cases hall : ∀ s ∈ rest, s = "K_LOADER_MK_VMS"
      · simp [hall]
      · simp [hall]
    · simp [accumulate_features, to_load_feature, hfeat, K_LOADER_NO_LOADER_FEATURES]

theorem str_k_type_bin (K : Kelf) :
    str_k_type K ((literal K.K_KEN_BIN_EXT_STR).take K.EI_K_EXT_STR) = "binary" := by
  simp [str_k_type, memcmpEq, List.take_take]

theorem str_k_type_driver (K : Kelf) (hd : K.patternsDistinct) :
    str_k_type K ((literal K.K_KEN_DRIVER_EXT_STR).take K.EI_K_EXT_STR) = "driver" := by
  unfold Kelf.patternsDistinct tag_patterns at hd
  simp only [List.nodup_cons, List.mem_cons, List.mem_singleton, List.not_mem_nil,
    or_false, not_or] at hd
  have h1 := hd.1.1
  simp [str_k_type, memcmpEq, List.take_take, Ne.symm h1]

theorem str_k_type_module (K : Kelf) (hd : K.patternsDistinct) :
    str_k_type K ((literal K.K_KEN_MODULE_EXT_STR).take K.EI_K_EXT_STR) = "module" := by
  unfold Kelf.patternsDistinct tag_patterns at hd
  simp only [List.nodup_cons, List.mem_cons, List.mem_singleton, List.not_mem_nil,
    or_false, not_or] at hd
  have h1 := hd.1.2
  have h2 := hd.2.1
  simp [str_k_type, memcmpEq, List.take_take, Ne.symm h1, Ne.symm h2]

/-- The name `to_ext_str` accepts comes back from `str_k_type` on the bytes that
`memcpy` takes from the converted string. -/
theorem to_ext_str_str_k_type (K : Kelf) (hb : K.copyInBounds) (hd : K.patternsDistinct)
    (name : String) (hname : name ∈ ["binary", "driver", "module"]) :
    ∃ tag, to_ext_str K name = .ok tag
      ∧ (c_str tag).take K.EI_K_EXT_STR ∈ tag_patterns K
      ∧ str_k_type K ((c_str tag).take K.EI_K_EXT_STR) = name := by
  simp only [List.mem_cons, List.mem_singleton, List.not_mem_nil, or_false] at hname
  obtain ⟨hb1, hb2, hb3⟩ := hb
  rcases hname with h | h | h
  · subst h
    refine ⟨stdString K.K_KEN_BIN_EXT_STR, by simp [to_ext_str], ?_, ?_⟩
    · rw [take_c_str_stdString _ _ hb1]; simp [tag_patterns]
    · rw [take_c_str_stdString _ _ hb1]; exact str_k_type_bin K
  · subst h
    refine ⟨stdString K.K_KEN_DRIVER_EXT_STR, by simp [to_ext_str], ?_, ?_⟩
    · rw [take_c_str_stdString _ _ hb2]; simp [tag_patterns]
    · rw [take_c_str_stdString _ _ hb2]; exact str_k_type_driver K hd
  · subst h
    refine ⟨stdString K.K_KEN_MODULE_EXT_STR, by simp [to_ext_str], ?_, ?_⟩
    · rw [take_c_str_stdString _ _ hb3]; simp [tag_patterns]
    · rw [take_c_str_stdString _ _ hb3]; exact str_k_type_module K hd

/-- The tag field that an info run decodes is the tag of the file, for a file
that holds the three fields. -/
theorem get_k_ext_str_read_ext (K : Kelf) (file : Bytes)
    (hN : OFF_K_EXT_STR + K.EI_K_EXT_STR ≤ K.sizeofIdent)
    (hlen : K.extOffset + OFF_K_EXT_STR + K.EI_K_EXT_STR ≤ file.length) :
    get_k_ext_str K (read_ext K file)
      = (file.drop (K.extOffset + OFF_K_EXT_STR)).take K.EI_K_EXT_STR := by
  unfold get_k_ext_str
  apply List.ext_getElem?
  intro i
  simp only [List.getElem?_take, List.getElem?_drop]
  by_cases hi : i < K.EI_K_EXT_STR
  · rw [if_pos hi, if_pos hi, read_ext_getElem? K file _ (by omega) (by omega)]
    congr 1; omega
  · rw [if_neg hi, if_neg hi]

/-- The bytes of the file after the write, inside the written range. -/
theorem fwrite_block_getElem? (K : Kelf) (vm : Options) (t file : Bytes) (i : Nat)
    (hsize : K.sizeofIdent ≤ K.sizeofExtIdent) (hi : i < K.sizeofIdent) :
    (fwrite file K.extOffset (written_block K vm t file))[K.extOffset + i]?
      = (apply_updates K vm (requested_vid vm) (requested_features vm) t
          (read_ext K file))[i]? := by
  rw [fwrite_getElem?, written_block_length K vm t file hsize]
  rw [if_neg (by omega), if_pos (by omega)]
  unfold written_block
  rw [List.getElem?_take]
  have : K.extOffset + i - K.extOffset = i := by omega
  rw [this, if_pos hi]

theorem read_ext_length_ge (K : Kelf) (file : Bytes)
    (hsize : K.sizeofIdent ≤ K.sizeofExtIdent) :
    K.sizeofIdent ≤ (read_ext K file).length := by
  rw [read_ext_length K file hsize]; exact hsize

/-- A block byte that the write does not replace, or replaces by the byte read
from it, is the byte of the file. -/
theorem patched_file_getElem?_of_kept (K : Kelf) (vm : Options)
    (t file : Bytes) (j : Nat) (hsize : K.sizeofIdent ≤ K.sizeofExtIdent)
    (hlen : K.extOffset + j < file.length)
    (hkeep : (apply_updates K vm (requested_vid vm) (requested_features vm) t
        (read_ext K file))[j]? = (read_ext K file)[j]?) :
    (fwrite file K.extOffset (written_block K vm t file))[K.extOffset + j]?
      = file[K.extOffset + j]? := by
  by_cases hj : j < K.sizeofIdent
  · rw [fwrite_block_getElem? K vm t file j hsize hj, hkeep,
      read_ext_getElem? K file j hj hlen]
  · rw [fwrite_getElem?, written_block_length K vm t file hsize]
    rw [if_neg (by omega), if_neg (by omega)]

theorem magic_ok_iff (file : Bytes) :
    magic_ok file = true ↔ file.take 4 = [0x7F, 0x45, 0x4C, 0x46] := by
  rcases file with _ | ⟨a, _ | ⟨b, _ | ⟨c, _ | ⟨d, rest⟩⟩⟩⟩ <;> simp [magic_ok, fread, and_assoc]

/-- The length of the file after a write of the block. -/
theorem patched_file_length (K : Kelf) (vm : Options) (t file : Bytes)
    (hsize : K.sizeofIdent ≤ K.sizeofExtIdent) :
    (fwrite file K.extOffset (written_block K vm t file)).length
      = max file.length (K.extOffset + K.sizeofIdent) := by
  rw [fwrite_length, written_block_length K vm t file hsize]

/-- Every accepted patch run leaves a file of at least
`offset + sizeof(Elf64_Ident)` bytes: a shorter file grows to that length. -/
theorem patch_run_file_length (K : Kelf) (vm : Options) (w : World) (path : String)
    (file : Bytes) (o : Outcome) (hh : vm.help = false)
    (he : vm.elf = some path) (hf : w.file = some file) (hi : info_only vm = false)
    (hrun : main K vm w = some o) (hx : o.exit = 0) :
    o.file.map List.length
      = some (max file.length (K.extOffset + K.sizeofIdent)) := by
  obtain ⟨hsize, t, ht, hr, hw, hm⟩ :=
    patch_conditions_of_exit K vm w path file o hh he hf hi hrun hx
  rw [main_patch K vm w path file t hsize hh he hf hi ht hr hw hm] at hrun
  cases hrun
  simp [patched_file_length K vm t file hsize]

/-- A request whose `--k-type`, if any, is a recognised name has its type string. -/
theorem requested_type_ok (K : Kelf) (vm : Options)
    (hk : ∀ name, vm.k_type = some name → name ∈ ["binary", "driver", "module"]) :
    ∃ t, requested_type K vm = .ok t := by
  unfold requested_type
  cases hkt : vm.k_type with
  | none => exact ⟨[], rfl⟩
  | some name =>
    have hmem := hk name hkt
    simp only [List.mem_cons, List.mem_singleton, List.not_mem_nil, or_false] at hmem
    cases vm.info
    · rcases hmem with h | h | h <;> subst h <;> simp [to_ext_str]
    · exact ⟨[], rfl⟩

theorem extMemory_length_le (K : Kelf) (file : Bytes) :
    K.sizeofExtIdent ≤ (read_ext K file).length := by
  unfold read_ext
  have := store_length_ge (extMemory K) 0 (fread file K.extOffset K.sizeofIdent)
  rwa [extMemory_length] at this

theorem to_ext_str_bounds (K : Kelf) (hb : K.copyInBounds) (hne : K.tagsNonempty)
    (name : String) (tag : Bytes) (h : to_ext_str K name = .ok tag) :
    tag ≠ [] ∧ K.EI_K_EXT_STR ≤ tag.length + 1 := by
  obtain ⟨hb1, hb2, hb3⟩ := hb
  obtain ⟨hn1, hn2, hn3⟩ := hne
  unfold to_ext_str at h
  split_ifs at h
  · cases h; exact ⟨hn1, hb1⟩
  · cases h; exact ⟨hn2, hb2⟩
  · cases h; exact ⟨hn3, hb3⟩

/-- A write at or behind position `k` leaves the first `k` bytes of a file that has
them. -/
theorem fwrite_take (file : Bytes) (pos : Nat) (data : Bytes) (k : Nat)
    (hpos : k ≤ pos) (hlen : k ≤ file.length) :
    (fwrite file pos data).take k = file.take k := by
  apply List.ext_getElem?
  intro i
  simp only [List.getElem?_take, fwrite_getElem?]
  by_cases hi : i < k
  · rw [if_pos hi, if_pos hi, if_pos (by omega), if_pos (by omega)]
  · rw [if_neg hi, if_neg hi]

theorem magic_ok_fwrite (file : Bytes) (pos : Nat) (data : Bytes) (hpos : 4 ≤ pos)
    (hm : file.take 4 = [0x7F, 0x45, 0x4C, 0x46]) :
    magic_ok (fwrite file pos data) = true := by
  have hlen : 4 ≤ file.length := by
    have := congrArg List.length hm
    simp only [List.length_take, List.length_cons, List.length_nil] at this
    omega
  rw [magic_ok_iff, fwrite_take file pos data 4 hpos hlen, hm]

/-- What an info run reads back from a file that a patch run has written. -/
theorem read_ext_fwrite_getElem? (K : Kelf) (vm : Options) (t file : Bytes) (j : Nat)
    (hsize : K.sizeofIdent ≤ K.sizeofExtIdent) (hj : j < K.sizeofIdent) :
    (read_ext K (fwrite file K.extOffset (written_block K vm t file)))[j]?
      = (apply_updates K vm (requested_vid vm) (requested_features vm) t
          (read_ext K file))[j]? := by
  rw [read_ext_getElem? K _ j hj, fwrite_block_getElem? K vm t file j hsize hj]
  rw [patched_file_length K vm t file hsize]; omega

theorem accumulate_features_le_one (feats : List String) :
    accumulate_features 0 feats ≤ 1 := by
  rw [accumulate_features_eq feats 0 (by omega)]
  split_ifs <;> omega

theorem getD_of_getElem? (l : Bytes) (i x : Nat) (h : l[i]? = some x) : l.getD i 0 = x := by
  rw [List.getD_eq_getElem?_getD, h]; rfl

theorem info_report_length (K : Kelf) (ext : Bytes) : 3 ≤ (info_report K ext).length := by
  simp [info_report]

/-- Adding `--ignore-elf-magic` to a request with a path does not change the mode. -/
theorem info_only_bypass (vm : Options) (path : String) (hh : vm.help = false)
    (he : vm.elf = some path) :
    info_only { vm with ignore_elf_magic := true } = info_only vm := by
  rw [info_only_eq vm path hh he, info_only_eq { vm with ignore_elf_magic := true } path hh he]

/-- Adding `--info` to a request changes nothing in a run that is in info mode
already. -/
theorem main_add_info (K : Kelf) (vm : Options) (w : World)
    (path : String) (he : vm.elf = some path)
    (hv : vm.vid = none) (hk : vm.k_type = none) (hl : vm.loader_feature = none) :
    main K { vm with info := true } w = main K vm w := by
  obtain ⟨help, elf, vid, k_type, loader_feature, ignore_elf_magic, info⟩ := vm
  simp only at he hv hk hl
  subst he hv hk hl
  cases help <;> cases ignore_elf_magic <;> cases info <;> rfl

/-- The report of an info run is the report of the bytes of the file at the fixed
offset, for a file that holds the three fields and a transfer that covers them. -/
theorem info_report_read_ext (K : Kelf) (file : Bytes)
    (hN : OFF_K_EXT_STR + K.EI_K_EXT_STR ≤ K.sizeofIdent)
    (hlen : K.extOffset + OFF_K_EXT_STR + K.EI_K_EXT_STR ≤ file.length) :
    info_report K (read_ext K file)
      = info_report K
          ((file.drop K.extOffset).take (OFF_K_EXT_STR + K.EI_K_EXT_STR)) := by
  have hbyte : ∀ j, j < OFF_K_EXT_STR + K.EI_K_EXT_STR →
      (read_ext K file)[j]?
        = ((file.drop K.extOffset).take (OFF_K_EXT_STR + K.EI_K_EXT_STR))[j]? := by
    intro j hj
    rw [read_ext_getElem? K file j (by omega) (by omega), List.getElem?_take, if_pos hj,
      List.getElem?_drop]
  have hd : ∀ j, j < OFF_K_EXT_STR + K.EI_K_EXT_STR →
      (read_ext K file).getD j 0
        = ((file.drop K.extOffset).take (OFF_K_EXT_STR + K.EI_K_EXT_STR)).getD j 0 := by
    intro j hj
    rw [List.getD_eq_getElem?_getD, List.getD_eq_getElem?_getD, hbyte j hj]
  have htag : get_k_ext_str K (read_ext K file)
      = get_k_ext_str K
          ((file.drop K.extOffset).take (OFF_K_EXT_STR + K.EI_K_EXT_STR)) := by
    unfold get_k_ext_str
    apply List.ext_getElem?
    intro i
    simp only [List.getElem?_take, List.getElem?_drop]
    by_cases hi : i < K.EI_K_EXT_STR
    · rw [if_pos hi, if_pos hi, if_pos (by omega),
        read_ext_getElem? K file _ (by omega) (by omega)]
    · rw [if_neg hi, if_neg hi]
  have h0 := hd 0 (by simp only [OFF_K_EXT_STR]; omega)
  have h1 := hd 1 (by simp only [OFF_K_EXT_STR]; omega)
  have h2 := hd 2 (by simp only [OFF_K_EXT_STR]; omega)
  unfold info_report get_k_vid get_k_flags
  simp only [OFF_K_VID, OFF_K_FLAGS]
  rw [h0, h1, h2, htag]

/-- What an accepted patch run leaves: exit code 0, no output, a file of the
length `max(old, offset + sizeof(Elf64_Ident))`, the requested version id in the
first two bytes of the block and the accumulated feature byte in the third. -/
theorem main_patch_stores (K : Kelf) (vm : Options) (w : World) (path : String)
    (file : Bytes) (hsize : K.sizeofIdent ≤ K.sizeofExtIdent)
    (hN : OFF_K_FLAGS < K.sizeofIdent)
    (hh : vm.help = false) (he : vm.elf = some path) (hf : w.file = some file)
    (hi : info_only vm = false) (hr : w.readable = true) (hw : w.writable = true)
    (hm : vm.ignore_elf_magic = true ∨ magic_ok file = true)
    (hk : ∀ name, vm.k_type = some name → name ∈ ["binary", "driver", "module"]) :
    ∃ o file', main K vm w = some o ∧ o.exit = 0 ∧ o.out = [] ∧ o.file = some file'
      ∧ file'.length = max file.length (K.extOffset + K.sizeofIdent)
      ∧ (∀ v, vm.vid = some v →
          file'[K.extOffset + OFF_K_VID]? = some (v % 256)
            ∧ file'[K.extOffset + (OFF_K_VID + 1)]? = some (v / 256 % 256))
      ∧ (∀ feats, vm.loader_feature = some feats →
          file'[K.extOffset + OFF_K_FLAGS]? = some (accumulate_features 0 feats)) := by
  obtain ⟨t, ht⟩ := requested_type_ok K vm hk
  have hinfo := info_false_of_patch vm hi
  simp only [OFF_K_FLAGS] at hN
  have h3 : 3 ≤ (read_ext K file).length := by
    have := read_ext_length_ge K file hsize; omega
  refine ⟨_, _, main_patch K vm w path file t hsize hh he hf hi ht hr hw hm, rfl, rfl, rfl,
    patched_file_length K vm t file hsize, ?_, ?_⟩
  · intro v hv
    have hvid : requested_vid vm = v % 65536 := by
      simp [requested_vid, hv, hinfo]
    constructor
    · rw [fwrite_block_getElem? K vm t file _ hsize (by simp only [OFF_K_VID]; omega),
        apply_updates_getElem? _ _ _ _ _ _ _ h3, hvid]
      simp only [OFF_K_VID, hv, Option.isSome_some, if_true]
      simp
      omega
    · rw [fwrite_block_getElem? K vm t file _ hsize (by simp only [OFF_K_VID]; omega),
        apply_updates_getElem? _ _ _ _ _ _ _ h3, hvid]
      simp only [OFF_K_VID, hv, Option.isSome_some, if_true]
      simp
      omega
  · intro feats hl
    have hfet : requested_features vm = accumulate_features 0 feats := by
      simp [requested_features, hl, hinfo]
    have hle := accumulate_features_le_one feats
    rw [fwrite_block_getElem? K vm t file _ hsize (by simp only [OFF_K_FLAGS]; omega),
      apply_updates_getElem? _ _ _ _ _ _ _ h3, hfet]
    simp only [OFF_K_FLAGS, hl, Option.isSome_some, if_true]
    simp
    omega


/-- The outcome of an info run that gets through: exit code 0, the file as it
was, and, for a file that holds the three fields and a transfer that covers them,
the report of the bytes of the file at the fixed offset. -/
theorem main_info_report (K : Kelf) (vm : Options) (w : World) (path : String)
    (file : Bytes) (hsize : K.sizeofIdent ≤ K.sizeofExtIdent)
    (hh : vm.help = false) (he : vm.elf = some path)
    (hf : w.file = some file) (hi : info_only vm = true) (hr : w.readable = true)
    (hm : vm.ignore_elf_magic = true ∨ magic_ok file = true) :
    ∃ o, main K vm w = some o ∧ o.exit = 0 ∧ o.file = some file
      ∧ (OFF_K_EXT_STR + K.EI_K_EXT_STR ≤ K.sizeofIdent →
          K.extOffset + OFF_K_EXT_STR + K.EI_K_EXT_STR ≤ file.length →
          o.out = info_report K
            ((file.drop K.extOffset).take (OFF_K_EXT_STR + K.EI_K_EXT_STR))) := by
  refine ⟨_, main_info K vm w path file hsize hh he hf hi hr hm, rfl, rfl, ?_⟩
  intro hN hlen
  exact info_report_read_ext K file hN hlen

/-- A run in patch mode prints at most two items, so never a report. -/
theorem main_patch_out_length (K : Kelf) (vm : Options) (w : World) (o : Outcome)
    (hi : info_only vm = false) (hrun : main K vm w = some o) : o.out.length ≤ 2 := by
  unfold main at hrun
  by_cases h1 : (vm.help || vm.size == 0) = true
  · rw [if_pos h1] at hrun; cases hrun; simp
  · rw [if_neg h1] at hrun
    cases he : vm.elf with
    | none => rw [he] at hrun; cases hrun; simp
    | some path =>
      rw [he] at hrun
      cases hf : w.file with
      | none => rw [hf] at hrun; cases hrun; simp
      | some file =>
        rw [hf] at hrun
        cases ht : requested_type K vm with
        | error what => rw [ht] at hrun; cases hrun; simp
        | ok t =>
          rw [ht] at hrun
          simp only [hi, Bool.false_eq_true, if_false] at hrun
          split_ifs at hrun <;> cases hrun <;> simp

/-- A patch run on a file that cannot be opened for writing ends with exit code 1
and leaves the file as it was. -/
theorem main_patch_unwritable (K : Kelf) (vm : Options) (w : World) (path : String)
    (file : Bytes) (hh : vm.help = false) (he : vm.elf = some path)
    (hf : w.file = some file) (hi : info_only vm = false) (hw : w.writable = false) :
    ∃ o, main K vm w = some o ∧ o.exit = 1 ∧ o.file = some file := by
  unfold main
  rw [hh, size_pos_of_elf vm path he]
  simp only [Bool.or_self, Bool.false_eq_true, if_false, he, hf, hi, hw, Bool.and_false,
    Bool.not_false, if_true]
  cases requested_type K vm with
  | error what => exact ⟨_, rfl, rfl, rfl⟩
  | ok t => exact ⟨_, rfl, rfl, rfl⟩

/-- A request that names a path to a file without the ELF magic and does not
bypass the test is rejected with one error message. -/
theorem main_bad_magic (K : Kelf) (vm : Options) (w : World) (path : String)
    (file : Bytes) (hh : vm.help = false) (he : vm.elf = some path)
    (hf : w.file = some file) (hmag : magic_ok file = false)
    (hb : vm.ignore_elf_magic = false) :
    ∃ o, main K vm w = some o ∧ o.exit = 1 ∧ o.file = some file
      ∧ o.out ∈
          [[Out.line "Invalid ext type"], [Out.perror "fopen failed"],
           [Out.line ("ELF(" ++ path ++ ") Is not a valid ELF file")]] := by
  unfold main
  rw [hh, size_pos_of_elf vm path he]
  simp only [Bool.or_self, Bool.false_eq_true, if_false, he, hf, hb, hmag, Bool.not_false,
    Bool.and_self, if_true]
  cases ht : requested_type K vm with
  | error what =>
    have hwhat : what = "Invalid ext type" := by
      unfold requested_type at ht
      cases hk : vm.k_type with
      | none => rw [hk] at ht; cases ht
      | some name =>
        rw [hk] at ht
        simp only at ht
        split_ifs at ht
        unfold to_ext_str at ht
        split_ifs at ht
        cases ht; rfl
    subst hwhat
    exact ⟨_, rfl, rfl, rfl, by simp⟩
  | ok t =>
    simp only []
    split_ifs <;> exact ⟨_, rfl, rfl, rfl, by simp⟩

/-! ## The claims -/

/-- C8: for every flag byte `f`, `str_requested_loader_features f` is the single
name `K_LOADER_NO_LOADER_FEATURES` when `f = 0`, and otherwise the list of the
recognised names whose bit is set in `f`: it holds `K_LOADER_MK_VMS` exactly when
bit 0 of `f` is set, and it holds the sentinel name only when `f = 0`. -/
theorem str_requested_loader_features_spec (f : Nat) :
    str_requested_loader_features f =
        (if f = 0 then ["K_LOADER_NO_LOADER_FEATURES"]
         else if f.testBit 0 then ["K_LOADER_MK_VMS"] else [])
      ∧ ("K_LOADER_MK_VMS" ∈ str_requested_loader_features f ↔ f.testBit 0 = true)
      ∧ ("K_LOADER_NO_LOADER_FEATURES" ∈ str_requested_loader_features f ↔ f = 0) := by
  have hbit : f.testBit 0 = decide (f % 2 = 1) := Nat.testBit_zero f
  have hand : f &&& 1 = f % 2 := Nat.and_one_is_mod f
  unfold str_requested_loader_features
  simp only [K_LOADER_NO_LOADER_FEATURES, K_LOADER_MK_VMS, hand, hbit]
  by_cases h0 : f = 0
  · subst h0; simp
  · by_cases h1 : f % 2 = 1
    · have h2 : f % 2 ≠ 0 := by omega
      simp [h0, h1]
    · have h2 : f % 2 = 0 := by omega
      simp [h0, h2]

/-- C3: a patch request (no `--help`, no `--info`) whose `--k-type` value is none of
`binary`, `driver`, `module` has an outcome, ends with exit code 1 and leaves the
file as it was, whatever the other options, the header, the file and its
permissions are. -/
theorem invalid_k_type_rejected (K : Kelf) (vm : Options) (w : World) (name : String)
    (hh : vm.help = false) (hi : vm.info = false) (hk : vm.k_type = some name)
    (hname : name ≠ "binary" ∧ name ≠ "driver" ∧ name ≠ "module") :
    ∃ o, main K vm w = some o ∧ o.exit = 1 ∧ o.file = w.file := by
  have hsize : (vm.size == 0) = false := by
    simp [Options.size, hk]
  have hty : requested_type K vm = .error "Invalid ext type" := by
    unfold requested_type
    rw [hk]
    simp only [hi, Bool.not_false, if_true]
    exact to_ext_str_error K name (by simp [hname.1, hname.2.1, hname.2.2])
  unfold main
  rw [hh, hsize]
  simp only [Bool.or_self, Bool.false_eq_true, if_false]
  cases he : vm.elf with
  | none => exact ⟨_, rfl, rfl, rfl⟩
  | some path =>
    cases hf : w.file with
    | none => exact ⟨_, rfl, rfl, rfl⟩
    | some file => simp only [hty]; exact ⟨_, rfl, rfl, rfl⟩

/-- C9: on a header whose tag copies stay in bounds and whose three patterns
differ, each of the names `binary`, `driver`, `module` is accepted by `to_ext_str`
and `str_k_type` returns the name from the first `EI_K_EXT_STR` bytes of the
result; every other string makes `to_ext_str` fail. -/
theorem type_name_tag_inverse (K : Kelf) (hb : K.copyInBounds)
    (hd : K.patternsDistinct) :
    (∀ name ∈ ["binary", "driver", "module"],
        ∃ tag, to_ext_str K name = .ok tag
          ∧ str_k_type K ((c_str tag).take K.EI_K_EXT_STR) = name)
      ∧ (∀ name, name ∉ ["binary", "driver", "module"] →
          to_ext_str K name = .error "Invalid ext type") := by
  refine ⟨?_, fun name hname => to_ext_str_error K name hname⟩
  intro name hname
  obtain ⟨tag, h1, _, h3⟩ := to_ext_str_str_k_type K hb hd name hname
  exact ⟨tag, h1, h3⟩

/-- C3 at `--k-type Binary --vid 7` on `sampleFile`. -/
theorem invalid_k_type_rejected_witness :
    ∃ o, main sampleKelf badTypeRequest (worldOf sampleFile) = some o ∧ o.exit = 1
      ∧ o.file = some sampleFile :=
  invalid_k_type_rejected sampleKelf badTypeRequest (worldOf sampleFile) "Binary"
    rfl rfl rfl (by decide)

/-- C9 at the sample header. -/
theorem type_name_tag_inverse_witness :
    (∃ tag, to_ext_str sampleKelf "driver" = .ok tag
        ∧ str_k_type sampleKelf ((c_str tag).take sampleKelf.EI_K_EXT_STR) = "driver")
      ∧ to_ext_str sampleKelf "Unknown" = .error "Invalid ext type"
      ∧ to_ext_str sampleKelf "" = .error "Invalid ext type"
      ∧ to_ext_str sampleKelf "Binary" = .error "Invalid ext type" := by
  obtain ⟨h1, h2⟩ := type_name_tag_inverse sampleKelf (by decide) (by decide)
  exact ⟨h1 "driver" (by decide), h2 "Unknown" (by decide), h2 "" (by decide),
    h2 "Binary" (by decide)⟩

/-- On `sampleKelf`, whose transfer is larger than the object, the run
`--vid 1` on `sampleFile` has no outcome. -/
theorem sample_overrun :
    main sampleKelf vidRequest (worldOf sampleFile) = none := by
  decide

end GlenElfTool
